import Mathlib

/-!
Shallow embedding of `libafl_bolts/src/ownedref.rs`: the six
ownership-polymorphic wrapper types (OwnedRef, OwnedRefMut, OwnedSlice,
OwnedMutSlice, OwnedPtr, OwnedMutPtr) and the operations the spec talks
about.

Modelling conventions:
- A raw pointer is a natural number address; the null pointer is `0`.
- Memory holding elements of type `T` is a total map `Nat → T`; a raw
  slice `(ptr, len)` dereferences to the `len` consecutive cells starting
  at `ptr`.
- A Rust borrow (`&T`, `&mut T`, `&[T]`, `&mut [T]`) is modelled by the
  value it refers to; a `Box<T>` by a `T`; a `Vec<T>` by a `List T`.
- A Rust `panic!` / failed `assert!` / `Option::unwrap` on `None` is
  modelled by an `Option` result that is `none` in exactly the panicking
  cases.
- Serde serialization is modelled by an abstract encoder `s : T → E`
  (resp. `List T → E` for sequences) applied exactly where the source
  calls `.serialize(se)`, and deserialization by an abstract decoder
  `d : E → Option T`; the round-trip contract of the encoding framework
  (`d (s t) = some t`) is a hypothesis where a claim needs it.
- Methods taking `&mut self` (truncate) become functions returning the
  pair (return value, updated receiver).
-/

/-- Mirrors the private zero-size capability token `UnsafeMarker`
(ownedref.rs lines 21-40). -/
inductive UnsafeMarker : Type where
  | mk : UnsafeMarker
  deriving DecidableEq, Repr

/-- Mirrors `enum OwnedRef<'a, T>` (ownedref.rs lines 58-68):
`RefRaw(*const T, UnsafeMarker)`, `Ref(&'a T)`, `Owned(Box<T>)`. -/
inductive OwnedRef (T : Type) : Type where
  | RefRaw : Nat → UnsafeMarker → OwnedRef T
  | Ref : T → OwnedRef T
  | Owned : T → OwnedRef T
  deriving DecidableEq, Repr

namespace OwnedRef

/-- Mirrors `OwnedRef::from_ptr` (lines 103-109): asserts the pointer is
non-null (modelled by `none` on null), else yields `RefRaw`. -/
def from_ptr {T : Type} (ptr : Nat) : Option (OwnedRef T) :=
  if ptr = 0 then none else some (OwnedRef.RefRaw ptr UnsafeMarker.mk)

/-- Mirrors `OwnedRef::is_raw` (lines 111-115):
`matches!(self, OwnedRef::Ref(_))`. -/
def is_raw {T : Type} : OwnedRef T → Bool
  | OwnedRef.Ref _ => true
  | _ => false

/-- Mirrors `Clone for OwnedRef<'a, [u8]>` (lines 70-79): the `RefRaw`
arm is `panic!("Cannot clone")`, modelled by `none`; the element type
`[u8]` is modelled as `List Nat`. -/
def clone_u8 : OwnedRef (List Nat) → Option (OwnedRef (List Nat))
  | OwnedRef.RefRaw _ _ => none
  | OwnedRef.Ref s => some (OwnedRef.Ref s)
  | OwnedRef.Owned e => some (OwnedRef.Owned e)

/-- Mirrors `AsRef<T> for OwnedRef` (lines 189-201): the `RefRaw` arm is
`unsafe { (*r).as_ref().unwrap() }`, which panics on null. -/
def as_ref {T : Type} (mem : Nat → T) : OwnedRef T → Option T
  | OwnedRef.RefRaw r _ => if r = 0 then none else some (mem r)
  | OwnedRef.Ref r => some r
  | OwnedRef.Owned v => some v

/-- Mirrors `IntoOwned::is_owned for OwnedRef` (lines 207-213). -/
def is_owned {T : Type} : OwnedRef T → Bool
  | OwnedRef.RefRaw _ _ => false
  | OwnedRef.Ref _ => false
  | OwnedRef.Owned _ => true

/-- Mirrors `IntoOwned::into_owned for OwnedRef` (lines 215-224):
`RefRaw` clones the dereferenced value into a new box (`unwrap` panics
on null), `Ref` clones the referent, `Owned` is moved unchanged. -/
def into_owned {T : Type} (mem : Nat → T) : OwnedRef T → Option (OwnedRef T)
  | OwnedRef.RefRaw r _ => if r = 0 then none else some (OwnedRef.Owned (mem r))
  | OwnedRef.Ref r => some (OwnedRef.Owned r)
  | OwnedRef.Owned v => some (OwnedRef.Owned v)

/-- Mirrors `Serialize for OwnedRef` (lines 149-163): every arm
serializes the dereferenced value (`RefRaw` unwraps, panicking on
null). -/
def serialize {T E : Type} (s : T → E) (mem : Nat → T) : OwnedRef T → Option E
  | OwnedRef.RefRaw r _ => if r = 0 then none else some (s (mem r))
  | OwnedRef.Ref r => some (s r)
  | OwnedRef.Owned b => some (s b)

/-- Mirrors `Deserialize for OwnedRef` (lines 165-176): decodes a
`Box<T>` and wraps it in `OwnedRef::Owned`. -/
def deserialize {T E : Type} (d : E → Option T) (e : E) : Option (OwnedRef T) :=
  (d e).map OwnedRef.Owned

end OwnedRef

/-- Mirrors `enum OwnedRefMut<'a, T>` (ownedref.rs lines 229-239). -/
inductive OwnedRefMut (T : Type) : Type where
  | RefRaw : Nat → UnsafeMarker → OwnedRefMut T
  | Ref : T → OwnedRefMut T
  | Owned : T → OwnedRefMut T
  deriving DecidableEq, Repr

namespace OwnedRefMut

/-- Mirrors `OwnedRefMut::from_mut_ptr` (lines 253-259): asserts the
pointer is non-null. -/
def from_mut_ptr {T : Type} (ptr : Nat) : Option (OwnedRefMut T) :=
  if ptr = 0 then none else some (OwnedRefMut.RefRaw ptr UnsafeMarker.mk)

/-- Mirrors `AsRef<T> for OwnedRefMut` (lines 309-318). -/
def as_ref {T : Type} (mem : Nat → T) : OwnedRefMut T → Option T
  | OwnedRefMut.RefRaw r _ => if r = 0 then none else some (mem r)
  | OwnedRefMut.Ref r => some r
  | OwnedRefMut.Owned v => some v

/-- Mirrors `IntoOwned::is_owned for OwnedRefMut` (lines 335-341). -/
def is_owned {T : Type} : OwnedRefMut T → Bool
  | OwnedRefMut.RefRaw _ _ => false
  | OwnedRefMut.Ref _ => false
  | OwnedRefMut.Owned _ => true

/-- Mirrors `IntoOwned::into_owned for OwnedRefMut` (lines 343-352). -/
def into_owned {T : Type} (mem : Nat → T) : OwnedRefMut T → Option (OwnedRefMut T)
  | OwnedRefMut.RefRaw r _ => if r = 0 then none else some (OwnedRefMut.Owned (mem r))
  | OwnedRefMut.Ref r => some (OwnedRefMut.Owned r)
  | OwnedRefMut.Owned v => some (OwnedRefMut.Owned v)

/-- Mirrors `Serialize for OwnedRefMut` (lines 284-295). -/
def serialize {T E : Type} (s : T → E) (mem : Nat → T) : OwnedRefMut T → Option E
  | OwnedRefMut.Ref r => some (s r)
  | OwnedRefMut.RefRaw r _ => if r = 0 then none else some (s (mem r))
  | OwnedRefMut.Owned b => some (s b)

/-- Mirrors `Deserialize for OwnedRefMut` (lines 297-307). -/
def deserialize {T E : Type} (d : E → Option T) (e : E) : Option (OwnedRefMut T) :=
  (d e).map OwnedRefMut.Owned

end OwnedRefMut

/-- Reading `len` consecutive cells of memory starting at `ptr`: the
model of `slice::from_raw_parts(ptr, len)`. -/
def readMem {T : Type} (mem : Nat → T) (ptr len : Nat) : List T :=
  (List.range len).map (fun i => mem (ptr + i))

/-- Mirrors `enum OwnedSliceInner<'a, T>` (ownedref.rs lines 357-364):
`RefRaw(*const T, usize, UnsafeMarker)`, `Ref(&'a [T])`,
`Owned(Vec<T>)`. -/
inductive OwnedSliceInner (T : Type) : Type where
  | RefRaw : Nat → Nat → UnsafeMarker → OwnedSliceInner T
  | Ref : List T → OwnedSliceInner T
  | Owned : List T → OwnedSliceInner T
  deriving DecidableEq, Repr

/-- Mirrors `struct OwnedSlice<'a, T> { inner: OwnedSliceInner<'a, T> }`
(lines 397-400). -/
structure OwnedSlice (T : Type) : Type where
  inner : OwnedSliceInner T
  deriving DecidableEq, Repr

namespace OwnedSlice

/-- Mirrors `OwnedSlice::from_raw_parts` (lines 418-422): builds a
`RefRaw` from the given pointer and length with no null or zero-length
check. -/
def from_raw_parts {T : Type} (ptr len : Nat) : OwnedSlice T :=
  OwnedSlice.mk (OwnedSliceInner.RefRaw ptr len UnsafeMarker.mk)

/-- Mirrors `Deref for OwnedSlice` (lines 525-535): `Ref` yields the
slice, `RefRaw` reads `len` cells at `ptr`, `Owned` yields the vec. -/
def deref {T : Type} (mem : Nat → T) (self : OwnedSlice T) : List T :=
  match self.inner with
  | OwnedSliceInner.Ref r => r
  | OwnedSliceInner.RefRaw rr len _ => readMem mem rr len
  | OwnedSliceInner.Owned v => v

/-- Mirrors `OwnedSlice::truncate` (lines 425-455): per-variant bounds
check, returning the old length on success and `None` (receiver
unchanged) when `new_len` exceeds the current length. Slice and vec
truncation (`Truncate for &[T]`, lines 42-46, and `Vec::truncate`) are
`List.take`. -/
def truncate {T : Type} (self : OwnedSlice T) (new_len : Nat) :
    Option Nat × OwnedSlice T :=
  match self.inner with
  | OwnedSliceInner.RefRaw rr len m =>
      let tmp := len
      if new_len ≤ tmp then
        (some tmp, OwnedSlice.mk (OwnedSliceInner.RefRaw rr new_len m))
      else
        (none, self)
  | OwnedSliceInner.Ref r =>
      let tmp := r.length
      if new_len ≤ tmp then
        (some tmp, OwnedSlice.mk (OwnedSliceInner.Ref (r.take new_len)))
      else
        (none, self)
  | OwnedSliceInner.Owned v =>
      let tmp := v.length
      if new_len ≤ tmp then
        (some tmp, OwnedSlice.mk (OwnedSliceInner.Owned (v.take new_len)))
      else
        (none, self)

/-- Mirrors `IntoOwned::is_owned for OwnedSlice` (lines 541-547). -/
def is_owned {T : Type} (self : OwnedSlice T) : Bool :=
  match self.inner with
  | OwnedSliceInner.RefRaw _ _ _ => false
  | OwnedSliceInner.Ref _ => false
  | OwnedSliceInner.Owned _ => true

/-- Mirrors `IntoOwned::into_owned for OwnedSlice` (lines 549-562):
every non-owned variant is copied into a fresh owned vec. -/
def into_owned {T : Type} (mem : Nat → T) (self : OwnedSlice T) : OwnedSlice T :=
  match self.inner with
  | OwnedSliceInner.RefRaw rr len _ =>
      OwnedSlice.mk (OwnedSliceInner.Owned (readMem mem rr len))
  | OwnedSliceInner.Ref r => OwnedSlice.mk (OwnedSliceInner.Owned r)
  | OwnedSliceInner.Owned v => OwnedSlice.mk (OwnedSliceInner.Owned v)

/-- Mirrors `Serialize for OwnedSliceInner` (lines 366-379), which the
derived `Serialize for OwnedSlice` delegates to: every arm serializes
the logical sequence. -/
def serialize {T E : Type} (s : List T → E) (mem : Nat → T)
    (self : OwnedSlice T) : E :=
  match self.inner with
  | OwnedSliceInner.RefRaw rr len _ => s (readMem mem rr len)
  | OwnedSliceInner.Ref r => s r
  | OwnedSliceInner.Owned b => s b

/-- Mirrors `Deserialize for OwnedSliceInner` (lines 381-391): decodes
a `Vec<T>` and wraps it in `Owned`. -/
def deserialize {T E : Type} (d : E → Option (List T)) (e : E) :
    Option (OwnedSlice T) :=
  (d e).map (fun v => OwnedSlice.mk (OwnedSliceInner.Owned v))

end OwnedSlice

/-- Mirrors `enum OwnedMutSliceInner<'a, T>` (ownedref.rs lines
583-590). -/
inductive OwnedMutSliceInner (T : Type) : Type where
  | RefRaw : Nat → Nat → UnsafeMarker → OwnedMutSliceInner T
  | Ref : List T → OwnedMutSliceInner T
  | Owned : List T → OwnedMutSliceInner T
  deriving DecidableEq, Repr

/-- Mirrors `struct OwnedMutSlice<'a, T>` (lines 621-624). -/
structure OwnedMutSlice (T : Type) : Type where
  inner : OwnedMutSliceInner T
  deriving DecidableEq, Repr

namespace OwnedMutSlice

/-- Mirrors `OwnedMutSlice::from_raw_parts_mut` (lines 652-662): a null
pointer or zero length collapses to an empty `Owned` vec; otherwise a
`RefRaw` holding exactly the given pointer and length. -/
def from_raw_parts_mut {T : Type} (ptr len : Nat) : OwnedMutSlice T :=
  if ptr = 0 ∨ len = 0 then
    OwnedMutSlice.mk (OwnedMutSliceInner.Owned [])
  else
    OwnedMutSlice.mk (OwnedMutSliceInner.RefRaw ptr len UnsafeMarker.mk)

/-- Mirrors `Deref for OwnedMutSlice` (lines 708-718). -/
def deref {T : Type} (mem : Nat → T) (self : OwnedMutSlice T) : List T :=
  match self.inner with
  | OwnedMutSliceInner.RefRaw rr len _ => readMem mem rr len
  | OwnedMutSliceInner.Ref r => r
  | OwnedMutSliceInner.Owned v => v

/-- Mirrors `OwnedMutSlice::truncate` (lines 665-695), the same
structure as the immutable slice's truncate; `Truncate for &mut [T]`
(lines 48-54) is `List.take` under the caller's bounds check. -/
def truncate {T : Type} (self : OwnedMutSlice T) (new_len : Nat) :
    Option Nat × OwnedMutSlice T :=
  match self.inner with
  | OwnedMutSliceInner.RefRaw rr len m =>
      let tmp := len
      if new_len ≤ tmp then
        (some tmp, OwnedMutSlice.mk (OwnedMutSliceInner.RefRaw rr new_len m))
      else
        (none, self)
  | OwnedMutSliceInner.Ref r =>
      let tmp := r.length
      if new_len ≤ tmp then
        (some tmp, OwnedMutSlice.mk (OwnedMutSliceInner.Ref (r.take new_len)))
      else
        (none, self)
  | OwnedMutSliceInner.Owned v =>
      let tmp := v.length
      if new_len ≤ tmp then
        (some tmp, OwnedMutSlice.mk (OwnedMutSliceInner.Owned (v.take new_len)))
      else
        (none, self)

/-- Mirrors `IntoOwned::is_owned for OwnedMutSlice` (lines 736-742). -/
def is_owned {T : Type} (self : OwnedMutSlice T) : Bool :=
  match self.inner with
  | OwnedMutSliceInner.RefRaw _ _ _ => false
  | OwnedMutSliceInner.Ref _ => false
  | OwnedMutSliceInner.Owned _ => true

/-- Mirrors `IntoOwned::into_owned for OwnedMutSlice` (lines 744-757). -/
def into_owned {T : Type} (mem : Nat → T) (self : OwnedMutSlice T) :
    OwnedMutSlice T :=
  let vec : List T :=
    match self.inner with
    | OwnedMutSliceInner.RefRaw rr len _ => readMem mem rr len
    | OwnedMutSliceInner.Ref r => r
    | OwnedMutSliceInner.Owned v => v
  OwnedMutSlice.mk (OwnedMutSliceInner.Owned vec)

/-- Mirrors `Serialize for OwnedMutSliceInner` (lines 592-605). -/
def serialize {T E : Type} (s : List T → E) (mem : Nat → T)
    (self : OwnedMutSlice T) : E :=
  match self.inner with
  | OwnedMutSliceInner.RefRaw rr len _ => s (readMem mem rr len)
  | OwnedMutSliceInner.Ref r => s r
  | OwnedMutSliceInner.Owned b => s b

/-- Mirrors `Deserialize for OwnedMutSliceInner` (lines 607-617). -/
def deserialize {T E : Type} (d : E → Option (List T)) (e : E) :
    Option (OwnedMutSlice T) :=
  (d e).map (fun v => OwnedMutSlice.mk (OwnedMutSliceInner.Owned v))

end OwnedMutSlice

namespace OwnedSlice

/-- Mirrors `From<OwnedMutSlice<'a, T>> for OwnedSlice<'a, T>` (lines
511-523): each variant maps to the corresponding immutable variant,
keeping pointer, length and contents. -/
def from_mut_slice {T : Type} (mut_slice : OwnedMutSlice T) : OwnedSlice T :=
  OwnedSlice.mk
    (match mut_slice.inner with
     | OwnedMutSliceInner.RefRaw ptr len m => OwnedSliceInner.RefRaw ptr len m
     | OwnedMutSliceInner.Ref r => OwnedSliceInner.Ref r
     | OwnedMutSliceInner.Owned v => OwnedSliceInner.Owned v)

end OwnedSlice

/-- Mirrors `enum OwnedPtr<T>` (ownedref.rs lines 820-825): `Ptr(*const
T)`, `Owned(Box<T>)` — no borrowed variant. -/
inductive OwnedPtr (T : Type) : Type where
  | Ptr : Nat → OwnedPtr T
  | Owned : T → OwnedPtr T
  deriving DecidableEq, Repr

namespace OwnedPtr

/-- Mirrors `OwnedPtr::from_raw` (lines 833-835): no null check. -/
def from_raw {T : Type} (ptr : Nat) : OwnedPtr T :=
  OwnedPtr.Ptr ptr

/-- Mirrors `AsRef<T> for OwnedPtr` (lines 859-867): unwrap panics on
null. -/
def as_ref {T : Type} (mem : Nat → T) : OwnedPtr T → Option T
  | OwnedPtr.Ptr p => if p = 0 then none else some (mem p)
  | OwnedPtr.Owned v => some v

/-- Mirrors `IntoOwned::is_owned for OwnedPtr` (lines 873-879). -/
def is_owned {T : Type} : OwnedPtr T → Bool
  | OwnedPtr.Ptr _ => false
  | OwnedPtr.Owned _ => true

/-- Mirrors `IntoOwned::into_owned for OwnedPtr` (lines 881-888). -/
def into_owned {T : Type} (mem : Nat → T) : OwnedPtr T → Option (OwnedPtr T)
  | OwnedPtr.Ptr p => if p = 0 then none else some (OwnedPtr.Owned (mem p))
  | OwnedPtr.Owned v => some (OwnedPtr.Owned v)

/-- Mirrors `Serialize for OwnedPtr` (lines 838-845): delegates to
`as_ref`, serializing the dereferenced value. -/
def serialize {T E : Type} (s : T → E) (mem : Nat → T) (self : OwnedPtr T) :
    Option E :=
  (self.as_ref mem).map s

/-- Mirrors `Deserialize for OwnedPtr` (lines 847-857). -/
def deserialize {T E : Type} (d : E → Option T) (e : E) : Option (OwnedPtr T) :=
  (d e).map OwnedPtr.Owned

end OwnedPtr

/-- Mirrors `enum OwnedMutPtr<T>` (ownedref.rs lines 891-897). -/
inductive OwnedMutPtr (T : Type) : Type where
  | Ptr : Nat → OwnedMutPtr T
  | Owned : T → OwnedMutPtr T
  deriving DecidableEq, Repr

namespace OwnedMutPtr

/-- Mirrors `OwnedMutPtr::from_raw_mut` (lines 905-907): no null
check. -/
def from_raw_mut {T : Type} (ptr : Nat) : OwnedMutPtr T :=
  OwnedMutPtr.Ptr ptr

/-- Mirrors `AsRef<T> for OwnedMutPtr` (lines 931-938). -/
def as_ref {T : Type} (mem : Nat → T) : OwnedMutPtr T → Option T
  | OwnedMutPtr.Ptr p => if p = 0 then none else some (mem p)
  | OwnedMutPtr.Owned b => some b

/-- Mirrors `IntoOwned::is_owned for OwnedMutPtr` (lines 954-960). -/
def is_owned {T : Type} : OwnedMutPtr T → Bool
  | OwnedMutPtr.Ptr _ => false
  | OwnedMutPtr.Owned _ => true

/-- Mirrors `IntoOwned::into_owned for OwnedMutPtr` (lines 962-970). -/
def into_owned {T : Type} (mem : Nat → T) : OwnedMutPtr T → Option (OwnedMutPtr T)
  | OwnedMutPtr.Ptr p => if p = 0 then none else some (OwnedMutPtr.Owned (mem p))
  | OwnedMutPtr.Owned v => some (OwnedMutPtr.Owned v)

/-- Mirrors `Serialize for OwnedMutPtr` (lines 910-917): delegates to
`as_ref`. -/
def serialize {T E : Type} (s : T → E) (mem : Nat → T) (self : OwnedMutPtr T) :
    Option E :=
  (self.as_ref mem).map s

/-- Mirrors `Deserialize for OwnedMutPtr` (lines 919-929). -/
def deserialize {T E : Type} (d : E → Option T) (e : E) : Option (OwnedMutPtr T) :=
  (d e).map OwnedMutPtr.Owned

end OwnedMutPtr

/-- Length of a raw-memory read equals the requested length. -/
theorem readMem_length {T : Type} (mem : Nat → T) (ptr len : Nat) :
    (readMem mem ptr len).length = len := by
  simp [readMem]

/-- Concrete injective encoder for `Nat` values, used to instantiate
the abstract serde framework on examples. -/
def encNat : Nat → Nat ⊕ List Nat := Sum.inl

/-- Concrete decoder matching `encNat`. -/
def decNat : Nat ⊕ List Nat → Option Nat
  | Sum.inl t => some t
  | Sum.inr _ => none

/-- Concrete injective encoder for `List Nat` sequences. -/
def encListNat : List Nat → Nat ⊕ List Nat := Sum.inr

/-- Concrete decoder matching `encListNat`. -/
def decListNat : Nat ⊕ List Nat → Option (List Nat)
  | Sum.inl _ => none
  | Sum.inr v => some v

/-- C8: across all six wrapper kinds and all their variants, `is_owned`
returns true exactly when the active variant is Owned. -/
theorem C8_is_owned_iff_owned_variant (T : Type) :
    (∀ v : OwnedRef T, v.is_owned = true ↔ ∃ b, v = OwnedRef.Owned b) ∧
    (∀ v : OwnedRefMut T, v.is_owned = true ↔ ∃ b, v = OwnedRefMut.Owned b) ∧
    (∀ v : OwnedSlice T, v.is_owned = true ↔ ∃ b, v.inner = OwnedSliceInner.Owned b) ∧
    (∀ v : OwnedMutSlice T, v.is_owned = true ↔ ∃ b, v.inner = OwnedMutSliceInner.Owned b) ∧
    (∀ v : OwnedPtr T, v.is_owned = true ↔ ∃ b, v = OwnedPtr.Owned b) ∧
    (∀ v : OwnedMutPtr T, v.is_owned = true ↔ ∃ b, v = OwnedMutPtr.Owned b) := by
  refine ⟨?_, ?_, ?_, ?_, ?_, ?_⟩ <;> intro v
  · cases v <;> simp [OwnedRef.is_owned]
  · cases v <;> simp [OwnedRefMut.is_owned]
  · obtain ⟨i⟩ := v
    cases i <;> simp [OwnedSlice.is_owned]
  · obtain ⟨i⟩ := v
    cases i <;> simp [OwnedMutSlice.is_owned]
  · cases v <;> simp [OwnedPtr.is_owned]
  · cases v <;> simp [OwnedMutPtr.is_owned]

/-- C9: cloning an `OwnedRef` over the unsized byte-sequence element
type aborts (yields `none`) exactly on the RawPointer variant, and
succeeds unchanged on the Ref and Owned variants. -/
theorem C9_clone_u8_raw_aborts :
    (∀ (p : Nat) (u : UnsafeMarker),
      OwnedRef.clone_u8 (OwnedRef.RefRaw p u) = none) ∧
    (∀ s : List Nat, OwnedRef.clone_u8 (OwnedRef.Ref s) = some (OwnedRef.Ref s)) ∧
    (∀ e : List Nat, OwnedRef.clone_u8 (OwnedRef.Owned e) = some (OwnedRef.Owned e)) :=
  ⟨fun _ _ => rfl, fun _ => rfl, fun _ => rfl⟩

/-- C10: `is_raw` on `OwnedRef` returns true exactly for the borrowed
`Ref` variant, and false both for `RefRaw` and for `Owned`. -/
theorem C10_is_raw_iff_ref_variant (T : Type) :
    (∀ v : OwnedRef T, v.is_raw = true ↔ ∃ r, v = OwnedRef.Ref r) ∧
    (∀ (p : Nat) (u : UnsafeMarker),
      (OwnedRef.RefRaw p u : OwnedRef T).is_raw = false) ∧
    (∀ b : T, (OwnedRef.Owned b).is_raw = false) := by
  refine ⟨?_, fun p u => rfl, fun b => rfl⟩
  intro v
  cases v <;> simp [OwnedRef.is_raw]

/-- C5: `from_raw_parts_mut` with a null pointer or zero length
collapses to an empty Owned wrapper (owned, logical length 0);
otherwise it returns the RawPointer variant holding exactly the given
pointer and length. -/
theorem C5_from_raw_parts_mut_collapse (T : Type) (mem : Nat → T) (p n : Nat) :
    ((p = 0 ∨ n = 0) →
      (OwnedMutSlice.from_raw_parts_mut p n : OwnedMutSlice T) =
        OwnedMutSlice.mk (OwnedMutSliceInner.Owned []) ∧
      (OwnedMutSlice.from_raw_parts_mut p n : OwnedMutSlice T).is_owned = true ∧
      ((OwnedMutSlice.from_raw_parts_mut p n : OwnedMutSlice T).deref mem).length = 0) ∧
    (p ≠ 0 → n ≠ 0 →
      (OwnedMutSlice.from_raw_parts_mut p n : OwnedMutSlice T) =
        OwnedMutSlice.mk (OwnedMutSliceInner.RefRaw p n UnsafeMarker.mk)) := by
  constructor
  · intro h
    simp [OwnedMutSlice.from_raw_parts_mut, h, OwnedMutSlice.is_owned,
      OwnedMutSlice.deref]
  · intro hp hn
    simp [OwnedMutSlice.from_raw_parts_mut, hp, hn]

/-- Witness for C5 at the concrete input (null pointer, zero length). -/
theorem C5_from_raw_parts_mut_collapse_witness :
    (OwnedMutSlice.from_raw_parts_mut 0 0 : OwnedMutSlice Nat) =
      OwnedMutSlice.mk (OwnedMutSliceInner.Owned []) ∧
    (OwnedMutSlice.from_raw_parts_mut 0 0 : OwnedMutSlice Nat).is_owned = true ∧
    ((OwnedMutSlice.from_raw_parts_mut 0 0 : OwnedMutSlice Nat).deref
      (fun _ => 0)).length = 0 :=
  (C5_from_raw_parts_mut_collapse Nat (fun _ => 0) 0 0).1 (Or.inl rfl)

/-- C7: downgrading a mutable slice to an immutable slice preserves the
logical contents, the ownership state, and the variant shape: RawPointer
maps to RawPointer with the same pointer and length, Ref to Ref over
the same slice, Owned to Owned over the same buffer. -/
theorem C7_downgrade_preserves_shape (T : Type) (mem : Nat → T) :
    (∀ m : OwnedMutSlice T,
      (OwnedSlice.from_mut_slice m).deref mem = m.deref mem) ∧
    (∀ m : OwnedMutSlice T,
      (OwnedSlice.from_mut_slice m).is_owned = m.is_owned) ∧
    (∀ (p l : Nat) (u : UnsafeMarker),
      OwnedSlice.from_mut_slice
          (OwnedMutSlice.mk (OwnedMutSliceInner.RefRaw p l u) : OwnedMutSlice T) =
        OwnedSlice.mk (OwnedSliceInner.RefRaw p l u)) ∧
    (∀ r : List T,
      OwnedSlice.from_mut_slice (OwnedMutSlice.mk (OwnedMutSliceInner.Ref r)) =
        OwnedSlice.mk (OwnedSliceInner.Ref r)) ∧
    (∀ v : List T,
      OwnedSlice.from_mut_slice (OwnedMutSlice.mk (OwnedMutSliceInner.Owned v)) =
        OwnedSlice.mk (OwnedSliceInner.Owned v)) := by
  refine ⟨?_, ?_, fun p l u => rfl, fun r => rfl, fun v => rfl⟩ <;> intro m
  · obtain ⟨i⟩ := m
    cases i <;> rfl
  · obtain ⟨i⟩ := m
    cases i <;> rfl

/-- C3: `into_owned` is idempotent for all six wrapper kinds — applying
it twice gives the same result as applying it once (failure propagating
through `Option.bind` for the kinds whose raw arm can panic on null) —
and on a value already in the Owned variant it is a no-op. -/
theorem C3_into_owned_idempotent (T : Type) (mem : Nat → T) :
    (∀ v : OwnedRef T,
      (v.into_owned mem).bind (OwnedRef.into_owned mem) = v.into_owned mem) ∧
    (∀ v : OwnedRef T, v.is_owned = true → v.into_owned mem = some v) ∧
    (∀ v : OwnedRefMut T,
      (v.into_owned mem).bind (OwnedRefMut.into_owned mem) = v.into_owned mem) ∧
    (∀ v : OwnedRefMut T, v.is_owned = true → v.into_owned mem = some v) ∧
    (∀ v : OwnedSlice T,
      (v.into_owned mem).into_owned mem = v.into_owned mem) ∧
    (∀ v : OwnedSlice T, v.is_owned = true → v.into_owned mem = v) ∧
    (∀ v : OwnedMutSlice T,
      (v.into_owned mem).into_owned mem = v.into_owned mem) ∧
    (∀ v : OwnedMutSlice T, v.is_owned = true → v.into_owned mem = v) ∧
    (∀ v : OwnedPtr T,
      (v.into_owned mem).bind (OwnedPtr.into_owned mem) = v.into_owned mem) ∧
    (∀ v : OwnedPtr T, v.is_owned = true → v.into_owned mem = some v) ∧
    (∀ v : OwnedMutPtr T,
      (v.into_owned mem).bind (OwnedMutPtr.into_owned mem) = v.into_owned mem) ∧
    (∀ v : OwnedMutPtr T, v.is_owned = true → v.into_owned mem = some v) := by
  refine ⟨?_, ?_, ?_, ?_, ?_, ?_, ?_, ?_, ?_, ?_, ?_, ?_⟩ <;> intro v
  · cases v with
    | RefRaw p u => by_cases hp : p = 0 <;> simp [OwnedRef.into_owned, hp]
    | Ref r => rfl
    | Owned b => rfl
  · intro h
    cases v with
    | RefRaw p u => simp [OwnedRef.is_owned] at h
    | Ref r => simp [OwnedRef.is_owned] at h
    | Owned b => rfl
  · cases v with
    | RefRaw p u => by_cases hp : p = 0 <;> simp [OwnedRefMut.into_owned, hp]
    | Ref r => rfl
    | Owned b => rfl
  · intro h
    cases v with
    | RefRaw p u => simp [OwnedRefMut.is_owned] at h
    | Ref r => simp [OwnedRefMut.is_owned] at h
    | Owned b => rfl
  · obtain ⟨i⟩ := v
    cases i <;> rfl
  · intro h
    obtain ⟨i⟩ := v
    cases i with
    | RefRaw p l u => simp [OwnedSlice.is_owned] at h
    | Ref r => simp [OwnedSlice.is_owned] at h
    | Owned w => rfl
  · obtain ⟨i⟩ := v
    cases i <;> rfl
  · intro h
    obtain ⟨i⟩ := v
    cases i with
    | RefRaw p l u => simp [OwnedMutSlice.is_owned] at h
    | Ref r => simp [OwnedMutSlice.is_owned] at h
    | Owned w => rfl
  · cases v with
    | Ptr p => by_cases hp : p = 0 <;> simp [OwnedPtr.into_owned, hp]
    | Owned b => rfl
  · intro h
    cases v with
    | Ptr p => simp [OwnedPtr.is_owned] at h
    | Owned b => rfl
  · cases v with
    | Ptr p => by_cases hp : p = 0 <;> simp [OwnedMutPtr.into_owned, hp]
    | Owned b => rfl
  · intro h
    cases v with
    | Ptr p => simp [OwnedMutPtr.is_owned] at h
    | Owned b => rfl

/-- Witness for C3 at a concrete already-Owned wrapper. -/
theorem C3_into_owned_idempotent_witness :
    (OwnedRef.Owned (7 : Nat)).into_owned (fun _ => 0) =
      some (OwnedRef.Owned 7) :=
  (C3_into_owned_idempotent Nat (fun _ => 0)).2.1 (OwnedRef.Owned 7) rfl

/-- C4: truncate monotonicity for both slice wrappers, in every variant:
with current logical length L, `truncate n` for n ≤ L returns `some L`
and the new logical length is n; for n > L it returns `none` and leaves
the wrapper unchanged. -/
theorem C4_truncate_monotone (T : Type) (mem : Nat → T) :
    (∀ (v : OwnedSlice T) (n : Nat),
      (n ≤ (v.deref mem).length →
        (v.truncate n).1 = some (v.deref mem).length ∧
        (((v.truncate n).2).deref mem).length = n) ∧
      ((v.deref mem).length < n →
        (v.truncate n).1 = none ∧ (v.truncate n).2 = v)) ∧
    (∀ (v : OwnedMutSlice T) (n : Nat),
      (n ≤ (v.deref mem).length →
        (v.truncate n).1 = some (v.deref mem).length ∧
        (((v.truncate n).2).deref mem).length = n) ∧
      ((v.deref mem).length < n →
        (v.truncate n).1 = none ∧ (v.truncate n).2 = v)) := by
  constructor
  · intro v n
    obtain ⟨i⟩ := v
    cases i with
    | RefRaw rr len u =>
        constructor
        · intro h
          simp [OwnedSlice.deref, readMem] at h
          simp [OwnedSlice.truncate, OwnedSlice.deref, readMem, h]
        · intro h
          simp [OwnedSlice.deref, readMem] at h
          simp [OwnedSlice.truncate, Nat.not_le.mpr h]
    | Ref r =>
        constructor
        · intro h
          simp [OwnedSlice.deref] at h
          simp [OwnedSlice.truncate, OwnedSlice.deref, h]
        · intro h
          simp [OwnedSlice.deref] at h
          simp [OwnedSlice.truncate, Nat.not_le.mpr h]
    | Owned w =>
        constructor
        · intro h
          simp [OwnedSlice.deref] at h
          simp [OwnedSlice.truncate, OwnedSlice.deref, h]
        · intro h
          simp [OwnedSlice.deref] at h
          simp [OwnedSlice.truncate, Nat.not_le.mpr h]
  · intro v n
    obtain ⟨i⟩ := v
    cases i with
    | RefRaw rr len u =>
        constructor
        · intro h
          simp [OwnedMutSlice.deref, readMem] at h
          simp [OwnedMutSlice.truncate, OwnedMutSlice.deref, readMem, h]
        · intro h
          simp [OwnedMutSlice.deref, readMem] at h
          simp [OwnedMutSlice.truncate, Nat.not_le.mpr h]
    | Ref r =>
        constructor
        · intro h
          simp [OwnedMutSlice.deref] at h
          simp [OwnedMutSlice.truncate, OwnedMutSlice.deref, h]
        · intro h
          simp [OwnedMutSlice.deref] at h
          simp [OwnedMutSlice.truncate, Nat.not_le.mpr h]
    | Owned w =>
        constructor
        · intro h
          simp [OwnedMutSlice.deref] at h
          simp [OwnedMutSlice.truncate, OwnedMutSlice.deref, h]
        · intro h
          simp [OwnedMutSlice.deref] at h
          simp [OwnedMutSlice.truncate, Nat.not_le.mpr h]

/-- Witness for C4 at the spec scenario: a RawPointer mutable slice of
length 5, truncated to 3 (returns the old length 5, new length 3) and
then asked to grow to 10 (refused, left unchanged). -/
theorem C4_truncate_monotone_witness :
    (((OwnedMutSlice.mk (OwnedMutSliceInner.RefRaw 1 5 UnsafeMarker.mk) :
        OwnedMutSlice Nat).truncate 3).1 = some 5 ∧
      ((((OwnedMutSlice.mk (OwnedMutSliceInner.RefRaw 1 5 UnsafeMarker.mk) :
        OwnedMutSlice Nat).truncate 3).2).deref (fun i => i)).length = 3) ∧
    (((OwnedMutSlice.mk (OwnedMutSliceInner.RefRaw 1 3 UnsafeMarker.mk) :
        OwnedMutSlice Nat).truncate 10).1 = none ∧
      ((OwnedMutSlice.mk (OwnedMutSliceInner.RefRaw 1 3 UnsafeMarker.mk) :
        OwnedMutSlice Nat).truncate 10).2 =
        OwnedMutSlice.mk (OwnedMutSliceInner.RefRaw 1 3 UnsafeMarker.mk)) :=
  ⟨((C4_truncate_monotone Nat (fun i => i)).2
      (OwnedMutSlice.mk (OwnedMutSliceInner.RefRaw 1 5 UnsafeMarker.mk)) 3).1
    (by decide),
   ((C4_truncate_monotone Nat (fun i => i)).2
      (OwnedMutSlice.mk (OwnedMutSliceInner.RefRaw 1 3 UnsafeMarker.mk)) 10).2
    (by decide)⟩

/-- C1: for every wrapper kind, decoding the encoding of a wrapper
yields the Owned variant holding exactly the dereferenced contents of
the original, assuming the encoding framework's round-trip contract
(`d (s t) = some t`). For the kinds whose raw arm can panic on a null
pointer this is stated through `Option.bind`: whenever encoding
succeeds, decoding yields Owned over the dereferenced value. -/
theorem C1_decode_encode_round_trip (T E : Type) (s : T → E)
    (d : E → Option T) (sl : List T → E) (dl : E → Option (List T))
    (mem : Nat → T) (hs : ∀ t, d (s t) = some t)
    (hl : ∀ v, dl (sl v) = some v) :
    (∀ v : OwnedRef T,
      (v.serialize s mem).bind (OwnedRef.deserialize d) =
        (v.as_ref mem).map OwnedRef.Owned) ∧
    (∀ v : OwnedRefMut T,
      (v.serialize s mem).bind (OwnedRefMut.deserialize d) =
        (v.as_ref mem).map OwnedRefMut.Owned) ∧
    (∀ v : OwnedSlice T,
      OwnedSlice.deserialize dl (v.serialize sl mem) =
        some (OwnedSlice.mk (OwnedSliceInner.Owned (v.deref mem)))) ∧
    (∀ v : OwnedMutSlice T,
      OwnedMutSlice.deserialize dl (v.serialize sl mem) =
        some (OwnedMutSlice.mk (OwnedMutSliceInner.Owned (v.deref mem)))) ∧
    (∀ v : OwnedPtr T,
      (v.serialize s mem).bind (OwnedPtr.deserialize d) =
        (v.as_ref mem).map OwnedPtr.Owned) ∧
    (∀ v : OwnedMutPtr T,
      (v.serialize s mem).bind (OwnedMutPtr.deserialize d) =
        (v.as_ref mem).map OwnedMutPtr.Owned) := by
  refine ⟨?_, ?_, ?_, ?_, ?_, ?_⟩ <;> intro v
  · cases v with
    | RefRaw p u =>
        by_cases hp : p = 0 <;>
          simp [OwnedRef.serialize, OwnedRef.deserialize, OwnedRef.as_ref, hp, hs]
    | Ref r => simp [OwnedRef.serialize, OwnedRef.deserialize, OwnedRef.as_ref, hs]
    | Owned b => simp [OwnedRef.serialize, OwnedRef.deserialize, OwnedRef.as_ref, hs]
  · cases v with
    | RefRaw p u =>
        by_cases hp : p = 0 <;>
          simp [OwnedRefMut.serialize, OwnedRefMut.deserialize,
            OwnedRefMut.as_ref, hp, hs]
    | Ref r =>
        simp [OwnedRefMut.serialize, OwnedRefMut.deserialize,
          OwnedRefMut.as_ref, hs]
    | Owned b =>
        simp [OwnedRefMut.serialize, OwnedRefMut.deserialize,
          OwnedRefMut.as_ref, hs]
  · obtain ⟨i⟩ := v
    cases i <;>
      simp [OwnedSlice.serialize, OwnedSlice.deserialize, OwnedSlice.deref, hl]
  · obtain ⟨i⟩ := v
    cases i <;>
      simp [OwnedMutSlice.serialize, OwnedMutSlice.deserialize,
        OwnedMutSlice.deref, hl]
  · cases v with
    | Ptr p =>
        by_cases hp : p = 0 <;>
          simp [OwnedPtr.serialize, OwnedPtr.deserialize, OwnedPtr.as_ref, hp, hs]
    | Owned b => simp [OwnedPtr.serialize, OwnedPtr.deserialize, OwnedPtr.as_ref, hs]
  · cases v with
    | Ptr p =>
        by_cases hp : p = 0 <;>
          simp [OwnedMutPtr.serialize, OwnedMutPtr.deserialize,
            OwnedMutPtr.as_ref, hp, hs]
    | Owned b =>
        simp [OwnedMutPtr.serialize, OwnedMutPtr.deserialize,
          OwnedMutPtr.as_ref, hs]

/-- Witness for C1 at a concrete borrowed slice wrapper under a
concrete invertible encoder. -/
theorem C1_decode_encode_round_trip_witness :
    OwnedSlice.deserialize decListNat
        ((OwnedSlice.mk (OwnedSliceInner.Ref [1, 2]) : OwnedSlice Nat).serialize
          encListNat (fun _ => 0)) =
      some (OwnedSlice.mk (OwnedSliceInner.Owned [1, 2])) :=
  (C1_decode_encode_round_trip Nat (Nat ⊕ List Nat) encNat decNat encListNat
      decListNat (fun _ => 0) (fun _ => rfl) (fun _ => rfl)).2.2.1
    (OwnedSlice.mk (OwnedSliceInner.Ref [1, 2]))

/-- C2: encoding is representation-independent for every wrapper kind:
the encoding is exactly the abstract encoder applied to the dereferenced
logical value (so it equals what a plain owned value or sequence of T
would encode to), two wrappers with equal dereferenced contents encode
identically, and every wrapper encodes like the Owned wrapper over its
own dereferenced contents. -/
theorem C2_encode_representation_independent (T E : Type) (s : T → E)
    (sl : List T → E) (mem : Nat → T) :
    (∀ v : OwnedRef T, v.serialize s mem = (v.as_ref mem).map s) ∧
    (∀ v₁ v₂ : OwnedRef T, v₁.as_ref mem = v₂.as_ref mem →
      v₁.serialize s mem = v₂.serialize s mem) ∧
    (∀ (v : OwnedRef T) (t : T), v.as_ref mem = some t →
      v.serialize s mem = (OwnedRef.Owned t).serialize s mem) ∧
    (∀ v : OwnedRefMut T, v.serialize s mem = (v.as_ref mem).map s) ∧
    (∀ v₁ v₂ : OwnedRefMut T, v₁.as_ref mem = v₂.as_ref mem →
      v₁.serialize s mem = v₂.serialize s mem) ∧
    (∀ (v : OwnedRefMut T) (t : T), v.as_ref mem = some t →
      v.serialize s mem = (OwnedRefMut.Owned t).serialize s mem) ∧
    (∀ v : OwnedSlice T, v.serialize sl mem = sl (v.deref mem)) ∧
    (∀ v₁ v₂ : OwnedSlice T, v₁.deref mem = v₂.deref mem →
      v₁.serialize sl mem = v₂.serialize sl mem) ∧
    (∀ v : OwnedSlice T, v.serialize sl mem =
      (OwnedSlice.mk (OwnedSliceInner.Owned (v.deref mem))).serialize sl mem) ∧
    (∀ v : OwnedMutSlice T, v.serialize sl mem = sl (v.deref mem)) ∧
    (∀ v₁ v₂ : OwnedMutSlice T, v₁.deref mem = v₂.deref mem →
      v₁.serialize sl mem = v₂.serialize sl mem) ∧
    (∀ v : OwnedMutSlice T, v.serialize sl mem =
      (OwnedMutSlice.mk (OwnedMutSliceInner.Owned (v.deref mem))).serialize sl mem) ∧
    (∀ v : OwnedPtr T, v.serialize s mem = (v.as_ref mem).map s) ∧
    (∀ v₁ v₂ : OwnedPtr T, v₁.as_ref mem = v₂.as_ref mem →
      v₁.serialize s mem = v₂.serialize s mem) ∧
    (∀ v : OwnedMutPtr T, v.serialize s mem = (v.as_ref mem).map s) ∧
    (∀ v₁ v₂ : OwnedMutPtr T, v₁.as_ref mem = v₂.as_ref mem →
      v₁.serialize s mem = v₂.serialize s mem) := by
  have hr : ∀ v : OwnedRef T, v.serialize s mem = (v.as_ref mem).map s := by
    intro v
    cases v with
    | RefRaw p u =>
        by_cases hp : p = 0 <;> simp [OwnedRef.serialize, OwnedRef.as_ref, hp]
    | Ref r => rfl
    | Owned b => rfl
  have hm : ∀ v : OwnedRefMut T, v.serialize s mem = (v.as_ref mem).map s := by
    intro v
    cases v with
    | RefRaw p u =>
        by_cases hp : p = 0 <;>
          simp [OwnedRefMut.serialize, OwnedRefMut.as_ref, hp]
    | Ref r => rfl
    | Owned b => rfl
  have hsl : ∀ v : OwnedSlice T, v.serialize sl mem = sl (v.deref mem) := by
    intro v
    obtain ⟨i⟩ := v
    cases i <;> rfl
  have hmsl : ∀ v : OwnedMutSlice T, v.serialize sl mem = sl (v.deref mem) := by
    intro v
    obtain ⟨i⟩ := v
    cases i <;> rfl
  have hp : ∀ v : OwnedPtr T, v.serialize s mem = (v.as_ref mem).map s := by
    intro v
    rfl
  have hmp : ∀ v : OwnedMutPtr T, v.serialize s mem = (v.as_ref mem).map s := by
    intro v
    rfl
  refine ⟨hr, ?_, ?_, hm, ?_, ?_, hsl, ?_, ?_, hmsl, ?_, ?_, hp, ?_, hmp, ?_⟩
  · intro v₁ v₂ h
    rw [hr, hr, h]
  · intro v t h
    rw [hr, h]
    rfl
  · intro v₁ v₂ h
    rw [hm, hm, h]
  · intro v t h
    rw [hm, h]
    rfl
  · intro v₁ v₂ h
    rw [hsl, hsl, h]
  · intro v
    rw [hsl]
    rfl
  · intro v₁ v₂ h
    rw [hmsl, hmsl, h]
  · intro v
    rw [hmsl]
    rfl
  · intro v₁ v₂ h
    rw [hp, hp, h]
  · intro v₁ v₂ h
    rw [hmp, hmp, h]

/-- Witness for C2: a borrowed wrapper and an owned wrapper holding the
same value encode identically. -/
theorem C2_encode_representation_independent_witness :
    (OwnedRef.Ref (4 : Nat)).serialize encNat (fun _ => 0) =
      (OwnedRef.Owned (4 : Nat)).serialize encNat (fun _ => 0) :=
  (C2_encode_representation_independent Nat (Nat ⊕ List Nat) encNat encListNat
      (fun _ => 0)).2.1 (OwnedRef.Ref 4) (OwnedRef.Owned 4) rfl

/-- C6 counterexample: constructing the immutable slice wrapper from the
null pointer does not abort: `from_raw_parts 0 5` returns the RawPointer
variant holding the null pointer and length 5, is not owned, and further
safe operations on it succeed (truncating to 3 returns the old length
5). -/
theorem C6_from_raw_parts_null_counterexample :
    (OwnedSlice.from_raw_parts 0 5 : OwnedSlice Nat) =
      OwnedSlice.mk (OwnedSliceInner.RefRaw 0 5 UnsafeMarker.mk) ∧
    (OwnedSlice.from_raw_parts 0 5 : OwnedSlice Nat).is_owned = false ∧
    ((OwnedSlice.from_raw_parts 0 5 : OwnedSlice Nat).truncate 3).1 = some 5 := by
  refine ⟨rfl, rfl, by decide⟩

/-- C6 (amended): constructing a single-value wrapper via `from_ptr`
with a null pointer aborts (and any non-null pointer yields the
RawPointer variant), while the immutable-slice `from_raw_parts`
performs no null check at all: for every pointer — null included — and
every length it returns the RawPointer variant holding exactly them. -/
theorem C6_null_handling_amended (T : Type) :
    (OwnedRef.from_ptr 0 : Option (OwnedRef T)) = none ∧
    (∀ p : Nat, p ≠ 0 →
      (OwnedRef.from_ptr p : Option (OwnedRef T)) =
        some (OwnedRef.RefRaw p UnsafeMarker.mk)) ∧
    (∀ p len : Nat,
      (OwnedSlice.from_raw_parts p len : OwnedSlice T) =
        OwnedSlice.mk (OwnedSliceInner.RefRaw p len UnsafeMarker.mk)) := by
  refine ⟨rfl, ?_, fun p len => rfl⟩
  intro p hp
  simp [OwnedRef.from_ptr, hp]

/-- Witness for the amended C6 at the concrete non-null pointer 7. -/
theorem C6_null_handling_amended_witness :
    (OwnedRef.from_ptr 7 : Option (OwnedRef Nat)) =
      some (OwnedRef.RefRaw 7 UnsafeMarker.mk) :=
  (C6_null_handling_amended Nat).2.1 7 (by decide)
